import Mathlib

/-!
Shallow embedding of `custom_components/daily_min_max/sensor.py`
(DailyMinMaxSensor): a Home Assistant sensor aggregating the running
minimum, maximum and latest reading over a configured set of tracked
entities, with a daily (or manual) reset and best-effort restore.

Numeric readings are modelled as rationals; Python `round(x, d)`
(round-half-to-even at `d` decimal digits) is `pyRound`.  A raw entity
state is a `Payload`: the sentinel strings `unknown` / `unavailable`,
a string parsing to a number (`numeric q`), or a string on which
`float(...)` raises `ValueError` (`malformed`).
-/

namespace DailyMinMax

/-- A stored entry of `self.states`: either the `STATE_UNKNOWN` sentinel
written for unknown/unavailable/absent states, or a rounded numeric value. -/
inductive StateVal where
  | sentinel : StateVal
  | num : ℚ → StateVal
  deriving DecidableEq, Repr

/-- The raw `new_state.state` payload of a state-change event. -/
inductive Payload where
  | unknown : Payload
  | unavailable : Payload
  | numeric : ℚ → Payload
  | malformed : Payload
  deriving DecidableEq, Repr

/-- The `new_state` object carried by an event: its raw state string and the
`unit_of_measurement` attribute (absent attribute is `none`). -/
structure StateObj where
  state : Payload
  unit : Option String
  deriving DecidableEq, Repr

/-- A state-change event: the entity id and the (possibly absent) new state. -/
structure Event where
  entity_id : String
  new_state : Option StateObj
  deriving DecidableEq, Repr

/-- Static configuration of `DailyMinMaxSensor.__init__` (the reset time is
host scheduling and does not enter the state transitions). -/
structure Config where
  entity_ids : List String
  sensor_type : String
  round_digits : ℤ
  manual_reset_only : Bool

/-- The mutable state of a `DailyMinMaxSensor` instance. -/
structure AggState where
  unit_of_measurement : Option String
  unit_mismatch : Bool
  available : Bool
  min_value : Option ℚ
  max_value : Option ℚ
  last : Option ℚ
  min_entity_id : Option String
  max_entity_id : Option String
  last_entity_id : Option String
  states : String → Option StateVal

/-- `__init__`: every aggregate field `None`, no states recorded,
no unit, no mismatch, available. -/
def initState : AggState where
  unit_of_measurement := none
  unit_mismatch := false
  available := true
  min_value := none
  max_value := none
  last := none
  min_entity_id := none
  max_entity_id := none
  last_entity_id := none
  states := fun _ => none

/-- Round-half-to-even to an integer, the tie rule of Python `round`. -/
def pyRoundInt (q : ℚ) : ℤ :=
  let f := ⌊q⌋
  let r := q - f
  if r < 1/2 then f
  else if 1/2 < r then f + 1
  else if 2 ∣ f then f else f + 1

/-- Python `round(q, d)`: round-half-to-even at `d` decimal digits. -/
def pyRound (d : ℤ) (q : ℚ) : ℚ :=
  (pyRoundInt (q * (10 : ℚ) ^ d) : ℚ) / (10 : ℚ) ^ d

/-- One iteration of the loop of `_calc_min`: skip sentinels, take the value
when none is held yet or when it is strictly below the held one. -/
def min_step (acc : Option String × Option ℚ) (p : String × StateVal) :
    Option String × Option ℚ :=
  match p.2 with
  | .sentinel => acc
  | .num sval =>
    match acc.2 with
    | none => (some p.1, some sval)
    | some val => if val > sval then (some p.1, some sval) else acc

/-- `_calc_min(sensor_values)`. -/
def calc_min (sensor_values : List (String × StateVal)) :
    Option String × Option ℚ :=
  sensor_values.foldl min_step (none, none)

/-- One iteration of the loop of `_calc_max`. -/
def max_step (acc : Option String × Option ℚ) (p : String × StateVal) :
    Option String × Option ℚ :=
  match p.2 with
  | .sentinel => acc
  | .num sval =>
    match acc.2 with
    | none => (some p.1, some sval)
    | some val => if val < sval then (some p.1, some sval) else acc

/-- `_calc_max(sensor_values)`. -/
def calc_max (sensor_values : List (String × StateVal)) :
    Option String × Option ℚ :=
  sensor_values.foldl max_step (none, none)

/-- The `sensor_values` list built at the top of `_calc_values`:
`(eid, states[eid])` for every tracked id present in `states`. -/
def sensor_values (cfg : Config) (s : AggState) : List (String × StateVal) :=
  cfg.entity_ids.filterMap fun eid => (s.states eid).map fun v => (eid, v)

/-- Merge of the min candidate (`_calc_values`, first `if`): adopt it when
non-null and either no running min exists or it is strictly below it. -/
def merge_min (s : AggState) (mn : Option String × Option ℚ) : AggState :=
  match mn.2 with
  | none => s
  | some v =>
    match s.min_value with
    | none => { s with min_entity_id := mn.1, min_value := some v }
    | some m =>
      if v < m then { s with min_entity_id := mn.1, min_value := some v }
      else s

/-- Merge of the max candidate (`_calc_values`, second `if`). -/
def merge_max (s : AggState) (mx : Option String × Option ℚ) : AggState :=
  match mx.2 with
  | none => s
  | some v =>
    match s.max_value with
    | none => { s with max_entity_id := mx.1, max_value := some v }
    | some m =>
      if v > m then { s with max_entity_id := mx.1, max_value := some v }
      else s

/-- `_calc_values`: compute both candidates over the current sensor values,
then merge each into the running extremum. -/
def calc_values (cfg : Config) (s : AggState) : AggState :=
  let sv := sensor_values cfg s
  merge_max (merge_min s (calc_min sv)) (calc_max sv)

/-- `self.states[entity] = v`. -/
def set_state (s : AggState) (eid : String) (v : StateVal) : AggState :=
  { s with states := fun a => if a = eid then some v else s.states a }

/-- `_async_sensor_state_listener(event)`.  Returns the new state and
whether `async_write_ha_state` was called (observers notified). -/
def sensor_state_listener (cfg : Config) (s : AggState) :
    Event → AggState × Bool
  | ⟨entity, none⟩ => (calc_values cfg (set_state s entity .sentinel), true)
  | ⟨entity, some ns⟩ =>
    if ns.state = .unknown ∨ ns.state = .unavailable then
      (calc_values cfg (set_state s entity .sentinel), true)
    else
      let s1 :=
        if s.unit_of_measurement = none
        then { s with unit_of_measurement := ns.unit } else s
      if s1.unit_of_measurement ≠ ns.unit then
        ({ s1 with unit_mismatch := true, available := false }, false)
      else
        match ns.state with
        | .numeric q =>
          let val := pyRound cfg.round_digits q
          let s2 :=
            { set_state s1 entity (.num val) with
              last := some val, last_entity_id := some entity }
          (calc_values cfg s2, true)
        | _ => (s1, false)

/-- `reset(_now)`, the scheduled daily trigger: a no-op under
`manual_reset_only`, otherwise `min = max = last`, all entity ids cleared,
observers notified. -/
def reset (cfg : Config) (s : AggState) : AggState × Bool :=
  if cfg.manual_reset_only then (s, false)
  else
    ({ s with
        min_value := s.last, max_value := s.last,
        min_entity_id := none, max_entity_id := none,
        last_entity_id := none }, true)

/-- `async_reset(_call)`, the manual-reset service handler: it delegates to
`reset(None)` unchanged. -/
def async_reset (cfg : Config) (s : AggState) : AggState × Bool :=
  reset cfg s

/-- `native_value`: `None` under unit mismatch, otherwise the min or max
according to the configured sensor type. -/
def native_value (cfg : Config) (s : AggState) : Option ℚ :=
  if s.unit_mismatch then none
  else if cfg.sensor_type = "min" then s.min_value
  else s.max_value

/-- A persisted attribute value as read back by `attributes.get`:
absent, a string parsing as a float, or a string on which `float` raises. -/
inductive PVal where
  | missing : PVal
  | numStr : ℚ → PVal
  | badStr : PVal
  deriving DecidableEq, Repr

/-- `float(x)` on a persisted attribute, with `TypeError` (missing) and
`ValueError` (unparsable) both caught. -/
def pvFloat : PVal → Option ℚ
  | .numStr q => some q
  | _ => none

/-- The persisted snapshot read by `async_get_last_state`. -/
structure Snapshot where
  min_value : PVal
  max_value : PVal
  last : PVal
  min_entity_id : Option String
  max_entity_id : Option String
  last_entity_id : Option String

/-- The restore part of `async_added_to_hass`: each numeric field assigned
independently from the snapshot inside its own `try`, entity ids assigned
verbatim, then `_calc_values` runs once.  With no snapshot only
`_calc_values` runs. -/
def restore_state (cfg : Config) (s : AggState) :
    Option Snapshot → AggState
  | none => calc_values cfg s
  | some ss =>
    calc_values cfg
      { s with
        min_value :=
          match pvFloat ss.min_value with
          | some v => some v
          | none => s.min_value
        max_value :=
          match pvFloat ss.max_value with
          | some v => some v
          | none => s.max_value
        last :=
          match pvFloat ss.last with
          | some v => some v
          | none => s.last
        min_entity_id := ss.min_entity_id
        max_entity_id := ss.max_entity_id
        last_entity_id := ss.last_entity_id }

/-- A runtime operation on a live sensor: a state-change event, the
scheduled reset trigger, or the manual reset service. -/
inductive Op where
  | ev : Event → Op
  | sched : Op
  | manual : Op

/-- Apply one operation, dropping the notification flag. -/
def apply_op (cfg : Config) (s : AggState) : Op → AggState
  | .ev e => (sensor_state_listener cfg s e).1
  | .sched => (reset cfg s).1
  | .manual => (async_reset cfg s).1

/-- Run a list of operations from a state. -/
def run_ops (cfg : Config) (s : AggState) (ops : List Op) : AggState :=
  ops.foldl (fun t op => apply_op cfg t op) s

/-- Run a list of state-change events from a state (ingestion only). -/
def run_events (cfg : Config) (s : AggState) (es : List Event) : AggState :=
  es.foldl (fun t e => (sensor_state_listener cfg t e).1) s

/-- A snapshot the host could have persisted from state `t`: each numeric
field either survives the round trip or is lost to a missing/unparsable
entry; entity ids are unconstrained. -/
def snapshot_of (t : AggState) (ss : Snapshot) : Prop :=
  (pvFloat ss.min_value = t.min_value ∨ pvFloat ss.min_value = none) ∧
  (pvFloat ss.max_value = t.max_value ∨ pvFloat ss.max_value = none) ∧
  (pvFloat ss.last = t.last ∨ pvFloat ss.last = none)

/-- States reachable by the component: a fresh boot (with `_calc_values`
run once and no snapshot), a boot restoring a snapshot persisted from a
previously reachable state, and any sequence of runtime operations. -/
inductive Reachable (cfg : Config) : AggState → Prop where
  | fresh : Reachable cfg (restore_state cfg initState none)
  | restored (t : AggState) (ss : Snapshot) (ht : Reachable cfg t)
      (hss : snapshot_of t ss) :
      Reachable cfg (restore_state cfg initState (some ss))
  | step (s : AggState) (op : Op) (h : Reachable cfg s) :
      Reachable cfg (apply_op cfg s op)

/-! ### Concrete configurations and states used in closed statements -/

/-- A numeric state-change event with the given unit annotation. -/
def evNum (eid : String) (q : ℚ) (u : Option String) : Event :=
  ⟨eid, some ⟨.numeric q, u⟩⟩

/-- An `unknown`-sentinel state-change event. -/
def evUnknown (eid : String) : Event :=
  ⟨eid, some ⟨.unknown, none⟩⟩

/-- A `manual_reset_only` configuration over one source. -/
def cfgC1 : Config := ⟨["sensor.a"], "max", 2, true⟩

/-- A state with distinct extrema and last value. -/
def sC1 : AggState :=
  { initState with min_value := some 1, max_value := some 3, last := some 2 }

/-- A two-source max aggregator with integral rounding. -/
def cfgW2 : Config := ⟨["a", "b"], "max", 0, false⟩

/-- A state holding extrema `3`. -/
def sW2 : AggState :=
  { initState with min_value := some 3, max_value := some 3, last := some 3 }

/-- One ingestion of the value `2` on source `b`. -/
def esW2 : List Event := [evNum "b" 2 none]

/-- The state reached from a fresh boot by ingesting `3` on `a` and then
`2` on `b`. -/
def sW3 : AggState :=
  apply_op cfgW2
    (apply_op cfgW2 (restore_state cfgW2 initState none)
      (.ev (evNum "a" 3 none)))
    (.ev (evNum "b" 2 none))

/-- A state about to be reset: `last = 7`, extrema `5` and `9`. -/
def sW4 : AggState :=
  { initState with
    min_value := some 5
    max_value := some 9
    last := some 7
    min_entity_id := some "a"
    max_entity_id := some "a"
    last_entity_id := some "a" }

/-- A state with one stored reading `3` on `a` holding both extrema. -/
def sW5 : AggState :=
  { initState with
    min_value := some 3
    max_value := some 3
    last := some 3
    min_entity_id := some "a"
    max_entity_id := some "a"
    last_entity_id := some "a"
    states := fun a => if a = "a" then some (.num 3) else none }

/-- Two-source max aggregator used in the sentinel counterexample. -/
def cfgC6 : Config := ⟨["a", "b"], "max", 2, false⟩

/-- `a` reports `1`. -/
def s6a : AggState :=
  (sensor_state_listener cfgC6 initState (evNum "a" 1 none)).1

/-- then `b` reports `5`. -/
def s6b : AggState := (sensor_state_listener cfgC6 s6a (evNum "b" 5 none)).1

/-- then the scheduled reset fires (`min = max = last = 5`). -/
def s6c : AggState := (reset cfgC6 s6b).1

/-- then `b` goes unknown: recomputation re-adopts the stale reading `1`. -/
def s6d : AggState := (sensor_state_listener cfgC6 s6c (evUnknown "b")).1

/-- A malformed reading for `a` carrying the unit annotation `u`. -/
def e7 : Event := ⟨"a", some ⟨.malformed, some "u"⟩⟩

/-- A state with a recorded unit and a mismatch already flagged. -/
def sW10 : AggState :=
  { initState with
    unit_of_measurement := some "C"
    unit_mismatch := true
    available := false
    min_value := some 3
    max_value := some 3
    last := some 3
    states := fun a => if a = "a" then some (.num 3) else none }

/-- A state with the unit `"C"` recorded and extrema present. -/
def sW9 : AggState :=
  { initState with
    unit_of_measurement := some "C"
    min_value := some 3
    max_value := some 3
    last := some 3
    states := fun a => if a = "a" then some (.num 3) else none }

/-- The `min_value: "2.5", max_value: "bad", last: "4.0"` snapshot. -/
def snapW8 : Snapshot := ⟨.numStr (5/2), .badStr, .numStr 4, none, none, none⟩

end DailyMinMax

namespace DailyMinMax

/-! ### Frame lemmas: which fields each operation leaves unchanged -/

theorem merge_min_frame (s : AggState) (mn : Option String × Option ℚ) :
    (merge_min s mn).max_value = s.max_value ∧
    (merge_min s mn).max_entity_id = s.max_entity_id ∧
    (merge_min s mn).last = s.last ∧
    (merge_min s mn).last_entity_id = s.last_entity_id ∧
    (merge_min s mn).states = s.states ∧
    (merge_min s mn).unit_of_measurement = s.unit_of_measurement ∧
    (merge_min s mn).unit_mismatch = s.unit_mismatch ∧
    (merge_min s mn).available = s.available := by
  obtain ⟨i, o⟩ := mn
  unfold merge_min
  cases o with
  | none => exact ⟨rfl, rfl, rfl, rfl, rfl, rfl, rfl, rfl⟩
  | some v =>
    cases h : s.min_value with
    | none => exact ⟨rfl, rfl, rfl, rfl, rfl, rfl, rfl, rfl⟩
    | some m =>
      by_cases hv : v < m <;> simp [hv]

theorem merge_max_frame (s : AggState) (mx : Option String × Option ℚ) :
    (merge_max s mx).min_value = s.min_value ∧
    (merge_max s mx).min_entity_id = s.min_entity_id ∧
    (merge_max s mx).last = s.last ∧
    (merge_max s mx).last_entity_id = s.last_entity_id ∧
    (merge_max s mx).states = s.states ∧
    (merge_max s mx).unit_of_measurement = s.unit_of_measurement ∧
    (merge_max s mx).unit_mismatch = s.unit_mismatch ∧
    (merge_max s mx).available = s.available := by
  obtain ⟨i, o⟩ := mx
  unfold merge_max
  cases o with
  | none => exact ⟨rfl, rfl, rfl, rfl, rfl, rfl, rfl, rfl⟩
  | some v =>
    cases h : s.max_value with
    | none => exact ⟨rfl, rfl, rfl, rfl, rfl, rfl, rfl, rfl⟩
    | some m =>
      by_cases hv : v > m <;> simp [hv]

theorem calc_values_frame (cfg : Config) (s : AggState) :
    (calc_values cfg s).last = s.last ∧
    (calc_values cfg s).last_entity_id = s.last_entity_id ∧
    (calc_values cfg s).states = s.states ∧
    (calc_values cfg s).unit_of_measurement = s.unit_of_measurement ∧
    (calc_values cfg s).unit_mismatch = s.unit_mismatch ∧
    (calc_values cfg s).available = s.available := by
  unfold calc_values
  obtain ⟨-, -, a3, a4, a5, a6, a7, a8⟩ :=
    merge_min_frame s (calc_min (sensor_values cfg s))
  obtain ⟨-, -, b3, b4, b5, b6, b7, b8⟩ :=
    merge_max_frame (merge_min s (calc_min (sensor_values cfg s)))
      (calc_max (sensor_values cfg s))
  exact ⟨b3.trans a3, b4.trans a4, b5.trans a5, b6.trans a6, b7.trans a7,
    b8.trans a8⟩

/-! ### Monotonicity of the running extrema under recomputation -/

theorem merge_min_mono (s : AggState) (mn : Option String × Option ℚ) (m : ℚ)
    (h : s.min_value = some m) :
    ∃ m', (merge_min s mn).min_value = some m' ∧ m' ≤ m := by
  obtain ⟨i, o⟩ := mn
  unfold merge_min
  cases o with
  | none => exact ⟨m, h, le_refl m⟩
  | some v =>
    rw [h]
    by_cases hv : v < m
    · exact ⟨v, by simp [hv], le_of_lt hv⟩
    · exact ⟨m, by simp [hv, h], le_refl m⟩

theorem merge_max_mono (s : AggState) (mx : Option String × Option ℚ) (M : ℚ)
    (h : s.max_value = some M) :
    ∃ M', (merge_max s mx).max_value = some M' ∧ M ≤ M' := by
  obtain ⟨i, o⟩ := mx
  unfold merge_max
  cases o with
  | none => exact ⟨M, h, le_refl M⟩
  | some v =>
    rw [h]
    by_cases hv : v > M
    · exact ⟨v, by simp [hv], le_of_lt hv⟩
    · exact ⟨M, by simp [hv, h], le_refl M⟩

theorem calc_values_min_mono (cfg : Config) (s : AggState) (m : ℚ)
    (h : s.min_value = some m) :
    ∃ m', (calc_values cfg s).min_value = some m' ∧ m' ≤ m := by
  unfold calc_values
  obtain ⟨m', hm', hle⟩ := merge_min_mono s (calc_min (sensor_values cfg s)) m h
  refine ⟨m', ?_, hle⟩
  have := (merge_max_frame (merge_min s (calc_min (sensor_values cfg s)))
    (calc_max (sensor_values cfg s))).1
  exact this.trans hm'

theorem calc_values_max_mono (cfg : Config) (s : AggState) (M : ℚ)
    (h : s.max_value = some M) :
    ∃ M', (calc_values cfg s).max_value = some M' ∧ M ≤ M' := by
  unfold calc_values
  have hs1 := (merge_min_frame s (calc_min (sensor_values cfg s))).1
  exact merge_max_mono _ (calc_max (sensor_values cfg s)) M (hs1.trans h)

/-- Every branch of the listener either ends in `_calc_values` applied to a
state whose extrema, mismatch flag and availability agree with the input
(up to the mismatch flag only ever being set), or returns such a state
directly. -/
theorem listener_shape (cfg : Config) (s : AggState) (e : Event) :
    (∃ t, sensor_state_listener cfg s e = (calc_values cfg t, true) ∧
        t.min_value = s.min_value ∧ t.max_value = s.max_value ∧
        t.unit_mismatch = s.unit_mismatch ∧ t.available = s.available) ∨
    (∃ t b, sensor_state_listener cfg s e = (t, b) ∧
        t.min_value = s.min_value ∧ t.max_value = s.max_value ∧
        (s.unit_mismatch = true → t.unit_mismatch = true) ∧
        (s.available = false → t.available = false)) := by
  obtain ⟨entity, nso⟩ := e
  cases nso with
  | none => exact Or.inl ⟨set_state s entity .sentinel, rfl, rfl, rfl, rfl, rfl⟩
  | some ns =>
    simp only [sensor_state_listener]
    by_cases hsent : ns.state = .unknown ∨ ns.state = .unavailable
    · rw [if_pos hsent]
      exact Or.inl ⟨set_state s entity .sentinel, rfl, rfl, rfl, rfl, rfl⟩
    · rw [if_neg hsent]
      by_cases hu : s.unit_of_measurement = none
      · simp only [hu, if_pos]
        rw [if_neg (by simp)]
        cases hp : ns.state with
        | numeric q =>
          exact Or.inl ⟨_, rfl, rfl, rfl, rfl, rfl⟩
        | unknown => exact absurd (Or.inl hp) hsent
        | unavailable => exact absurd (Or.inr hp) hsent
        | malformed =>
          exact Or.inr ⟨_, false, rfl, rfl, rfl, fun h => h, fun h => h⟩
      · simp only [if_neg hu]
        by_cases hne : s.unit_of_measurement ≠ ns.unit
        · rw [if_pos hne]
          exact Or.inr ⟨_, false, rfl, rfl, rfl, fun _ => rfl, fun _ => rfl⟩
        · rw [if_neg hne]
          cases hp : ns.state with
          | numeric q =>
            exact Or.inl ⟨_, rfl, rfl, rfl, rfl, rfl⟩
          | unknown => exact absurd (Or.inl hp) hsent
          | unavailable => exact absurd (Or.inr hp) hsent
          | malformed =>
            exact Or.inr ⟨_, false, rfl, rfl, rfl, fun h => h, fun h => h⟩

theorem listener_min_mono (cfg : Config) (s : AggState) (e : Event) (m : ℚ)
    (h : s.min_value = some m) :
    ∃ m', ((sensor_state_listener cfg s e).1).min_value = some m' ∧ m' ≤ m := by
  rcases listener_shape cfg s e with ⟨t, ht, hmin, _, _, _⟩ | ⟨t, b, ht, hmin, _, _, _⟩
  · rw [ht]
    exact calc_values_min_mono cfg t m (hmin.trans h)
  · rw [ht]
    exact ⟨m, hmin.trans h, le_refl m⟩

theorem listener_max_mono (cfg : Config) (s : AggState) (e : Event) (M : ℚ)
    (h : s.max_value = some M) :
    ∃ M', ((sensor_state_listener cfg s e).1).max_value = some M' ∧ M ≤ M' := by
  rcases listener_shape cfg s e with ⟨t, ht, _, hmax, _, _⟩ | ⟨t, b, ht, _, hmax, _, _⟩
  · rw [ht]
    exact calc_values_max_mono cfg t M (hmax.trans h)
  · rw [ht]
    exact ⟨M, hmax.trans h, le_refl M⟩

theorem run_events_min_mono (cfg : Config) (es : List Event) :
    ∀ (s : AggState) (m : ℚ), s.min_value = some m →
      ∃ m', (run_events cfg s es).min_value = some m' ∧ m' ≤ m := by
  induction es with
  | nil => exact fun s m h => ⟨m, h, le_refl m⟩
  | cons e tl ih =>
    intro s m h
    obtain ⟨m1, h1, hle1⟩ := listener_min_mono cfg s e m h
    obtain ⟨m2, h2, hle2⟩ := ih (sensor_state_listener cfg s e).1 m1 h1
    exact ⟨m2, h2, hle2.trans hle1⟩

theorem run_events_max_mono (cfg : Config) (es : List Event) :
    ∀ (s : AggState) (M : ℚ), s.max_value = some M →
      ∃ M', (run_events cfg s es).max_value = some M' ∧ M ≤ M' := by
  induction es with
  | nil => exact fun s M h => ⟨M, h, le_refl M⟩
  | cons e tl ih =>
    intro s M h
    obtain ⟨M1, h1, hle1⟩ := listener_max_mono cfg s e M h
    obtain ⟨M2, h2, hle2⟩ := ih (sensor_state_listener cfg s e).1 M1 h1
    exact ⟨M2, h2, hle1.trans hle2⟩

/-! ### The min-candidate never exceeds the max-candidate -/

/-- Paired accumulator invariant for the two scans of `_calc_min` and
`_calc_max` over the same sensor-value list. -/
def PairInv (x y : Option ℚ) : Prop :=
  (x = none ∧ y = none) ∨ ∃ a b, x = some a ∧ y = some b ∧ a ≤ b

theorem foldl_min_max_pair (l : List (String × StateVal)) :
    ∀ p q : Option String × Option ℚ, PairInv p.2 q.2 →
      PairInv (l.foldl min_step p).2 (l.foldl max_step q).2 := by
  induction l with
  | nil => exact fun p q h => h
  | cons hd tl ih =>
    intro p q h
    obtain ⟨j, sv⟩ := hd
    cases sv with
    | sentinel => exact ih _ _ h
    | num v =>
      apply ih
      obtain ⟨i1, o1⟩ := p
      obtain ⟨i2, o2⟩ := q
      rcases h with ⟨h1, h2⟩ | ⟨a, b, h1, h2, hab⟩ <;>
        simp only at h1 h2 <;> subst h1 <;> subst h2
      · exact Or.inr ⟨v, v, rfl, rfl, le_refl v⟩
      · simp only [min_step, max_step]
        by_cases hav : a > v <;> by_cases hbv : b < v <;>
          simp only [hav, hbv, if_true, if_false, ite_true, ite_false]
        · exact Or.inr ⟨v, v, rfl, rfl, le_refl v⟩
        · exact Or.inr ⟨v, b, rfl, rfl, le_of_lt (lt_of_lt_of_le hav hab)⟩
        · exact Or.inr ⟨a, v, rfl, rfl, le_of_lt (lt_of_le_of_lt hab hbv)⟩
        · exact Or.inr ⟨a, b, rfl, rfl, hab⟩

theorem calc_min_max_pair (l : List (String × StateVal)) :
    PairInv (calc_min l).2 (calc_max l).2 :=
  foldl_min_max_pair l (none, none) (none, none) (Or.inl ⟨rfl, rfl⟩)

/-! ### The `min_value ≤ max_value` invariant -/

/-- Both extrema non-null implies the min does not exceed the max. -/
def MinMaxInv (s : AggState) : Prop :=
  ∀ m M : ℚ, s.min_value = some m → s.max_value = some M → m ≤ M

theorem merge_min_of_none (s : AggState) (i : Option String) :
    merge_min s (i, none) = s := rfl

theorem merge_max_of_none (s : AggState) (i : Option String) :
    merge_max s (i, none) = s := rfl

/-- Result of merging a non-null min candidate: either the candidate is
adopted, or the running min is kept and is already at most the candidate. -/
theorem merge_min_min_spec (s : AggState) (i : Option String) (a : ℚ) :
    ((merge_min s (i, some a)).min_value = some a ∧
      (merge_min s (i, some a)).min_entity_id = i) ∨
    ((merge_min s (i, some a)).min_value = s.min_value ∧
      (merge_min s (i, some a)).min_entity_id = s.min_entity_id ∧
      ∃ m0, s.min_value = some m0 ∧ m0 ≤ a) := by
  unfold merge_min
  cases h0 : s.min_value with
  | none => exact Or.inl ⟨by simp [h0], by simp [h0]⟩
  | some m0 =>
    by_cases ha : a < m0
    · exact Or.inl ⟨by simp [h0, ha], by simp [h0, ha]⟩
    · exact Or.inr ⟨by simp [h0, ha], by simp [h0, ha], m0, rfl, le_of_not_lt ha⟩

/-- Result of merging a non-null max candidate. -/
theorem merge_max_max_spec (s : AggState) (i : Option String) (b : ℚ) :
    ((merge_max s (i, some b)).max_value = some b ∧
      (merge_max s (i, some b)).max_entity_id = i) ∨
    ((merge_max s (i, some b)).max_value = s.max_value ∧
      (merge_max s (i, some b)).max_entity_id = s.max_entity_id ∧
      ∃ M0, s.max_value = some M0 ∧ b ≤ M0) := by
  unfold merge_max
  cases h0 : s.max_value with
  | none => exact Or.inl ⟨by simp [h0], by simp [h0]⟩
  | some M0 =>
    by_cases hb : b > M0
    · exact Or.inl ⟨by simp [h0, hb], by simp [h0, hb]⟩
    · exact Or.inr ⟨by simp [h0, hb], by simp [h0, hb], M0, rfl, le_of_not_lt hb⟩

theorem calc_values_minmax (cfg : Config) (s : AggState) (h : MinMaxInv s) :
    MinMaxInv (calc_values cfg s) := by
  show MinMaxInv (merge_max (merge_min s (calc_min (sensor_values cfg s)))
    (calc_max (sensor_values cfg s)))
  rcases calc_min_max_pair (sensor_values cfg s) with ⟨h1, h2⟩ |
    ⟨a, b, h1, h2, hab⟩
  · have e1 : calc_min (sensor_values cfg s) =
        ((calc_min (sensor_values cfg s)).1, none) := Prod.ext rfl h1
    have e2 : calc_max (sensor_values cfg s) =
        ((calc_max (sensor_values cfg s)).1, none) := Prod.ext rfl h2
    rw [e1, e2, merge_min_of_none, merge_max_of_none]
    exact h
  · have e1 : calc_min (sensor_values cfg s) =
        ((calc_min (sensor_values cfg s)).1, some a) := Prod.ext rfl h1
    have e2 : calc_max (sensor_values cfg s) =
        ((calc_max (sensor_values cfg s)).1, some b) := Prod.ext rfl h2
    rw [e1, e2]
    set i1 := (calc_min (sensor_values cfg s)).1
    set i2 := (calc_max (sensor_values cfg s)).1
    set s1 := merge_min s (i1, some a) with hs1
    intro m M hm hM
    have hmaxframe : s1.max_value = s.max_value := (merge_min_frame s _).1
    have hminframe : (merge_max s1 (i2, some b)).min_value = s1.min_value :=
      (merge_max_frame s1 _).1
    rw [hminframe] at hm
    rcases merge_min_min_spec s i1 a with ⟨hA, -⟩ | ⟨hK, -, m0, hm0, hm0a⟩ <;>
      rcases merge_max_max_spec s1 i2 b with ⟨hB, -⟩ | ⟨hKM, -, M0, hM0, hbM0⟩
    · rw [← hs1] at hA
      rw [hA] at hm
      rw [hB] at hM
      obtain rfl := Option.some.inj hm
      obtain rfl := Option.some.inj hM
      exact hab
    · rw [← hs1] at hA
      rw [hA] at hm
      obtain rfl := Option.some.inj hm
      rw [hKM, hM0] at hM
      obtain rfl := Option.some.inj hM
      exact hab.trans hbM0
    · rw [hs1, hK, hm0] at hm
      obtain rfl := Option.some.inj hm
      rw [hB] at hM
      obtain rfl := Option.some.inj hM
      exact hm0a.trans hab
    · rw [hs1, hK, hm0] at hm
      obtain rfl := Option.some.inj hm
      rw [hKM, hM0] at hM
      obtain rfl := Option.some.inj hM
      exact h _ _ hm0 (hmaxframe.symm.trans hM0)

theorem listener_minmax (cfg : Config) (s : AggState) (e : Event)
    (h : MinMaxInv s) : MinMaxInv ((sensor_state_listener cfg s e).1) := by
  rcases listener_shape cfg s e with ⟨t, ht, hmin, hmax, -, -⟩ |
    ⟨t, b, ht, hmin, hmax, -, -⟩
  · rw [ht]
    exact calc_values_minmax cfg t fun m M hm hM =>
      h m M (hmin ▸ hm) (hmax ▸ hM)
  · rw [ht]
    exact fun m M hm hM => h m M (hmin ▸ hm) (hmax ▸ hM)

theorem reset_minmax (cfg : Config) (s : AggState) (h : MinMaxInv s) :
    MinMaxInv ((reset cfg s).1) := by
  unfold reset
  by_cases hman : cfg.manual_reset_only
  · rw [if_pos hman]
    exact h
  · rw [if_neg hman]
    intro m M hm hM
    simp only at hm hM
    rw [hm] at hM
    exact le_of_eq (Option.some.inj hM)

theorem apply_op_minmax (cfg : Config) (s : AggState) (op : Op)
    (h : MinMaxInv s) : MinMaxInv (apply_op cfg s op) := by
  cases op with
  | ev e => exact listener_minmax cfg s e h
  | sched => exact reset_minmax cfg s h
  | manual => exact reset_minmax cfg s h

theorem restore_minmax (cfg : Config) (t : AggState) (ss : Snapshot)
    (ht : MinMaxInv t) (hss : snapshot_of t ss) :
    MinMaxInv (restore_state cfg initState (some ss)) := by
  unfold restore_state
  apply calc_values_minmax
  intro m M hm hM
  simp only at hm hM
  obtain ⟨h1, h2, -⟩ := hss
  cases hmin : pvFloat ss.min_value with
  | none => rw [hmin] at hm; exact absurd hm (by simp [initState])
  | some v =>
    cases hmax : pvFloat ss.max_value with
    | none => rw [hmax] at hM; exact absurd hM (by simp [initState])
    | some w =>
      rw [hmin] at hm h1
      rw [hmax] at hM h2
      rcases h1 with h1 | h1
      · rcases h2 with h2 | h2
        · exact ht m M (h1.symm.trans hm) (h2.symm.trans hM)
        · exact absurd h2 (by simp)
      · exact absurd h1 (by simp)

theorem reachable_minmax (cfg : Config) (s : AggState)
    (h : Reachable cfg s) : MinMaxInv s := by
  induction h with
  | fresh =>
    apply calc_values_minmax
    intro m M hm hM
    exact absurd hm (by simp [initState])
  | restored t ss ht hss iht => exact restore_minmax cfg t ss iht hss
  | step s op hs ihs => exact apply_op_minmax cfg s op ihs

/-! ### Locating the candidate extremum -/

theorem mem_sensor_values (cfg : Config) (s : AggState)
    (p : String × StateVal) :
    p ∈ sensor_values cfg s ↔
      p.1 ∈ cfg.entity_ids ∧ s.states p.1 = some p.2 := by
  obtain ⟨eid, v⟩ := p
  unfold sensor_values
  rw [List.mem_filterMap]
  constructor
  · rintro ⟨a, ha, hf⟩
    rcases Option.map_eq_some'.1 hf with ⟨w, hw, hpair⟩
    obtain ⟨rfl, rfl⟩ : a = eid ∧ w = v :=
      ⟨congrArg Prod.fst hpair, congrArg Prod.snd hpair⟩
    exact ⟨ha, hw⟩
  · rintro ⟨h1, h2⟩
    exact ⟨eid, h1, by rw [h2]; rfl⟩

theorem foldl_min_step_stable (l : List (String × StateVal)) (i : String)
    (r : ℚ) (h : ∀ p ∈ l, ∀ v, p.2 = StateVal.num v → r ≤ v) :
    l.foldl min_step (some i, some r) = (some i, some r) := by
  induction l with
  | nil => rfl
  | cons hd tl ih =>
    obtain ⟨j, sv⟩ := hd
    cases sv with
    | sentinel =>
      exact ih fun p hp => h p (List.mem_cons_of_mem _ hp)
    | num v =>
      have hrv : r ≤ v := h (j, .num v) (List.mem_cons_self _ _) v rfl
      show List.foldl min_step (min_step (some i, some r) (j, .num v)) tl = _
      rw [show min_step (some i, some r) (j, .num v) = (some i, some r) from by
        simp [min_step, not_lt.2 hrv]]
      exact ih fun p hp => h p (List.mem_cons_of_mem _ hp)

theorem foldl_max_step_stable (l : List (String × StateVal)) (i : String)
    (r : ℚ) (h : ∀ p ∈ l, ∀ v, p.2 = StateVal.num v → v ≤ r) :
    l.foldl max_step (some i, some r) = (some i, some r) := by
  induction l with
  | nil => rfl
  | cons hd tl ih =>
    obtain ⟨j, sv⟩ := hd
    cases sv with
    | sentinel =>
      exact ih fun p hp => h p (List.mem_cons_of_mem _ hp)
    | num v =>
      have hrv : v ≤ r := h (j, .num v) (List.mem_cons_self _ _) v rfl
      show List.foldl max_step (max_step (some i, some r) (j, .num v)) tl = _
      rw [show max_step (some i, some r) (j, .num v) = (some i, some r) from by
        simp [max_step, not_lt.2 hrv]]
      exact ih fun p hp => h p (List.mem_cons_of_mem _ hp)

theorem foldl_min_step_reaches (l : List (String × StateVal)) (ent : String)
    (r : ℚ) :
    ∀ acc : Option String × Option ℚ,
      (ent, StateVal.num r) ∈ l →
      (∀ p ∈ l, ∀ v, p.2 = StateVal.num v →
        (p.1 = ent → v = r) ∧ (p.1 ≠ ent → r < v)) →
      (acc.2 = none ∨ ∃ j w, acc = (some j, some w) ∧ r < w) →
      l.foldl min_step acc = (some ent, some r) := by
  induction l with
  | nil =>
    intro acc hm _ _
    exact absurd hm (List.not_mem_nil _)
  | cons hd tl ih =>
    intro acc hm hb hacc
    obtain ⟨j, sv⟩ := hd
    have hbtl : ∀ p ∈ tl, ∀ v, p.2 = StateVal.num v →
        (p.1 = ent → v = r) ∧ (p.1 ≠ ent → r < v) :=
      fun p hp => hb p (List.mem_cons_of_mem _ hp)
    cases sv with
    | sentinel =>
      have hmtl : (ent, StateVal.num r) ∈ tl := by
        rcases List.mem_cons.1 hm with heq | h
        · exact absurd (congrArg Prod.snd heq) (by simp)
        · exact h
      show List.foldl min_step (min_step acc (j, .sentinel)) tl = _
      rw [show min_step acc (j, .sentinel) = acc from rfl]
      exact ih acc hmtl hbtl hacc
    | num v =>
      have hbv := hb (j, .num v) (List.mem_cons_self _ _) v rfl
      show List.foldl min_step (min_step acc (j, .num v)) tl = _
      by_cases hj : j = ent
      · have hv : v = r := hbv.1 hj
        subst hv
        have hstep : min_step acc (j, .num v) = (some j, some v) := by
          rcases hacc with h0 | ⟨j0, w, rfl, hrw⟩
          · obtain ⟨i0, o0⟩ := acc
            simp only at h0
            subst h0
            rfl
          · simp [min_step, hrw]
        rw [hstep, hj]
        exact foldl_min_step_stable tl ent v fun p hp w hw => by
          by_cases hpj : p.1 = ent
          · exact le_of_eq ((hbtl p hp w hw).1 hpj).symm
          · exact le_of_lt ((hbtl p hp w hw).2 hpj)
      · have hv : r < v := hbv.2 hj
        have hmtl : (ent, StateVal.num r) ∈ tl := by
          rcases List.mem_cons.1 hm with heq | h
          · exact absurd (congrArg Prod.fst heq).symm hj
          · exact h
        have hstep : min_step acc (j, .num v) = (some j, some v) ∨
            (∃ j0 w, min_step acc (j, .num v) = (some j0, some w) ∧ r < w) := by
          rcases hacc with h0 | ⟨j0, w, rfl, hrw⟩
          · obtain ⟨i0, o0⟩ := acc
            simp only at h0
            subst h0
            exact Or.inl rfl
          · by_cases hwv : w > v
            · exact Or.inl (by simp [min_step, hwv])
            · exact Or.inr ⟨j0, w, by simp [min_step, hwv], hrw⟩
        rcases hstep with hstep | ⟨j0, w, hstep, hrw⟩
        · rw [hstep]
          exact ih _ hmtl hbtl (Or.inr ⟨j, v, rfl, hv⟩)
        · rw [hstep]
          exact ih _ hmtl hbtl (Or.inr ⟨j0, w, rfl, hrw⟩)

theorem foldl_max_step_reaches (l : List (String × StateVal)) (ent : String)
    (r : ℚ) :
    ∀ acc : Option String × Option ℚ,
      (ent, StateVal.num r) ∈ l →
      (∀ p ∈ l, ∀ v, p.2 = StateVal.num v →
        (p.1 = ent → v = r) ∧ (p.1 ≠ ent → v < r)) →
      (acc.2 = none ∨ ∃ j w, acc = (some j, some w) ∧ w < r) →
      l.foldl max_step acc = (some ent, some r) := by
  induction l with
  | nil =>
    intro acc hm _ _
    exact absurd hm (List.not_mem_nil _)
  | cons hd tl ih =>
    intro acc hm hb hacc
    obtain ⟨j, sv⟩ := hd
    have hbtl : ∀ p ∈ tl, ∀ v, p.2 = StateVal.num v →
        (p.1 = ent → v = r) ∧ (p.1 ≠ ent → v < r) :=
      fun p hp => hb p (List.mem_cons_of_mem _ hp)
    cases sv with
    | sentinel =>
      have hmtl : (ent, StateVal.num r) ∈ tl := by
        rcases List.mem_cons.1 hm with heq | h
        · exact absurd (congrArg Prod.snd heq) (by simp)
        · exact h
      show List.foldl max_step (max_step acc (j, .sentinel)) tl = _
      rw [show max_step acc (j, .sentinel) = acc from rfl]
      exact ih acc hmtl hbtl hacc
    | num v =>
      have hbv := hb (j, .num v) (List.mem_cons_self _ _) v rfl
      show List.foldl max_step (max_step acc (j, .num v)) tl = _
      by_cases hj : j = ent
      · have hv : v = r := hbv.1 hj
        subst hv
        have hstep : max_step acc (j, .num v) = (some j, some v) := by
          rcases hacc with h0 | ⟨j0, w, rfl, hrw⟩
          · obtain ⟨i0, o0⟩ := acc
            simp only at h0
            subst h0
            rfl
          · simp [max_step, hrw]
        rw [hstep, hj]
        exact foldl_max_step_stable tl ent v fun p hp w hw => by
          by_cases hpj : p.1 = ent
          · exact le_of_eq ((hbtl p hp w hw).1 hpj)
          · exact le_of_lt ((hbtl p hp w hw).2 hpj)
      · have hv : v < r := hbv.2 hj
        have hmtl : (ent, StateVal.num r) ∈ tl := by
          rcases List.mem_cons.1 hm with heq | h
          · exact absurd (congrArg Prod.fst heq).symm hj
          · exact h
        have hstep : max_step acc (j, .num v) = (some j, some v) ∨
            (∃ j0 w, max_step acc (j, .num v) = (some j0, some w) ∧ w < r) := by
          rcases hacc with h0 | ⟨j0, w, rfl, hrw⟩
          · obtain ⟨i0, o0⟩ := acc
            simp only at h0
            subst h0
            exact Or.inl rfl
          · by_cases hwv : w < v
            · exact Or.inl (by simp [max_step, hwv])
            · exact Or.inr ⟨j0, w, by simp [max_step, hwv], hrw⟩
        rcases hstep with hstep | ⟨j0, w, hstep, hrw⟩
        · rw [hstep]
          exact ih _ hmtl hbtl (Or.inr ⟨j, v, rfl, hv⟩)
        · rw [hstep]
          exact ih _ hmtl hbtl (Or.inr ⟨j0, w, rfl, hrw⟩)

/-- If the list holds an entry `(ent, r)` and every other numeric entry is
strictly above `r`, the min scan returns exactly that entry. -/
theorem calc_min_pinpoint (l : List (String × StateVal)) (ent : String)
    (r : ℚ) (hm : (ent, StateVal.num r) ∈ l)
    (hb : ∀ p ∈ l, ∀ v, p.2 = StateVal.num v →
      (p.1 = ent → v = r) ∧ (p.1 ≠ ent → r < v)) :
    calc_min l = (some ent, some r) :=
  foldl_min_step_reaches l ent r (none, none) hm hb (Or.inl rfl)

/-- Dual of `calc_min_pinpoint` for the max scan. -/
theorem calc_max_pinpoint (l : List (String × StateVal)) (ent : String)
    (r : ℚ) (hm : (ent, StateVal.num r) ∈ l)
    (hb : ∀ p ∈ l, ∀ v, p.2 = StateVal.num v →
      (p.1 = ent → v = r) ∧ (p.1 ≠ ent → v < r)) :
    calc_max l = (some ent, some r) :=
  foldl_max_step_reaches l ent r (none, none) hm hb (Or.inl rfl)

/-- A lower bound on every numeric entry is a lower bound on the min scan. -/
theorem foldl_min_step_lb (l : List (String × StateVal)) (m : ℚ)
    (h : ∀ p ∈ l, ∀ v, p.2 = StateVal.num v → m ≤ v) :
    ∀ acc : Option String × Option ℚ,
      (acc.2 = none ∨ ∃ w, acc.2 = some w ∧ m ≤ w) →
      ((l.foldl min_step acc).2 = none ∨
        ∃ w, (l.foldl min_step acc).2 = some w ∧ m ≤ w) := by
  induction l with
  | nil => exact fun acc hacc => hacc
  | cons hd tl ih =>
    intro acc hacc
    obtain ⟨j, sv⟩ := hd
    have htl : ∀ p ∈ tl, ∀ v, p.2 = StateVal.num v → m ≤ v :=
      fun p hp => h p (List.mem_cons_of_mem _ hp)
    cases sv with
    | sentinel => exact ih htl acc hacc
    | num v =>
      have hmv : m ≤ v := h (j, .num v) (List.mem_cons_self _ _) v rfl
      apply ih htl
      obtain ⟨i0, o0⟩ := acc
      rcases hacc with h0 | ⟨w, hw, hmw⟩
      · simp only at h0
        subst h0
        exact Or.inr ⟨v, rfl, hmv⟩
      · simp only at hw
        subst hw
        by_cases hwv : w > v
        · exact Or.inr ⟨v, by simp [min_step, hwv], hmv⟩
        · exact Or.inr ⟨w, by simp [min_step, hwv], hmw⟩

/-- An upper bound on every numeric entry is an upper bound on the max scan. -/
theorem foldl_max_step_ub (l : List (String × StateVal)) (M : ℚ)
    (h : ∀ p ∈ l, ∀ v, p.2 = StateVal.num v → v ≤ M) :
    ∀ acc : Option String × Option ℚ,
      (acc.2 = none ∨ ∃ w, acc.2 = some w ∧ w ≤ M) →
      ((l.foldl max_step acc).2 = none ∨
        ∃ w, (l.foldl max_step acc).2 = some w ∧ w ≤ M) := by
  induction l with
  | nil => exact fun acc hacc => hacc
  | cons hd tl ih =>
    intro acc hacc
    obtain ⟨j, sv⟩ := hd
    have htl : ∀ p ∈ tl, ∀ v, p.2 = StateVal.num v → v ≤ M :=
      fun p hp => h p (List.mem_cons_of_mem _ hp)
    cases sv with
    | sentinel => exact ih htl acc hacc
    | num v =>
      have hmv : v ≤ M := h (j, .num v) (List.mem_cons_self _ _) v rfl
      apply ih htl
      obtain ⟨i0, o0⟩ := acc
      rcases hacc with h0 | ⟨w, hw, hmw⟩
      · simp only at h0
        subst h0
        exact Or.inr ⟨v, rfl, hmv⟩
      · simp only at hw
        subst hw
        by_cases hwv : w < v
        · exact Or.inr ⟨v, by simp [max_step, hwv], hmv⟩
        · exact Or.inr ⟨w, by simp [max_step, hwv], hmw⟩

/-- The numeric path of the listener with an accepted unit annotation:
the reading is rounded, stored for its source, recorded as the latest
value, and `_calc_values` merges it; observers are notified. -/
theorem listener_numeric (cfg : Config) (s : AggState) (entity : String)
    (q : ℚ) (uu : Option String)
    (hu : s.unit_of_measurement = none ∨ s.unit_of_measurement = uu) :
    sensor_state_listener cfg s ⟨entity, some ⟨.numeric q, uu⟩⟩ =
      (calc_values cfg
        { s with
          unit_of_measurement :=
            if s.unit_of_measurement = none then uu
            else s.unit_of_measurement,
          states := fun a =>
            if a = entity then some (.num (pyRound cfg.round_digits q))
            else s.states a,
          last := some (pyRound cfg.round_digits q),
          last_entity_id := some entity }, true) := by
  rcases hu with hu0 | hu0
  · simp [sensor_state_listener, set_state, hu0]
  · by_cases h0 : s.unit_of_measurement = none
    · rw [h0] at hu0
      simp [sensor_state_listener, set_state, h0, ← hu0]
    · have huu : ¬(uu = none) := fun h => h0 (hu0.trans h)
      simp [sensor_state_listener, set_state, h0, hu0, huu]

/-- The sentinel path of the listener: absent, unknown or unavailable
states store the sentinel and recompute. -/
theorem listener_sentinel (cfg : Config) (s : AggState) (e : Event)
    (h : e.new_state = none ∨ ∃ ns, e.new_state = some ns ∧
      (ns.state = .unknown ∨ ns.state = .unavailable)) :
    sensor_state_listener cfg s e =
      (calc_values cfg (set_state s e.entity_id .sentinel), true) := by
  obtain ⟨entity, nso⟩ := e
  cases nso with
  | none => rfl
  | some ns =>
    rcases h with h | ⟨ns2, hns2, hsent⟩
    · exact absurd h (by simp)
    · obtain rfl : ns2 = ns := by injection hns2 with h2; exact h2.symm
      simp only [sensor_state_listener]
      rw [if_pos hsent]

/-- Merging a candidate not strictly below the running min keeps the state. -/
theorem merge_min_keep (s : AggState) (i : Option String) (w m : ℚ)
    (hmin : s.min_value = some m) (h : ¬(w < m)) :
    merge_min s (i, some w) = s := by
  simp [merge_min, hmin, h]

/-- Merging a candidate not strictly above the running max keeps the state. -/
theorem merge_max_keep (s : AggState) (i : Option String) (w M : ℚ)
    (hmax : s.max_value = some M) (h : ¬(w > M)) :
    merge_max s (i, some w) = s := by
  simp [merge_max, hmax, h]

/-- If the state stores a reading `r` for a tracked `entity` strictly below
the running min while every other stored reading stays at or above it,
recomputation adopts `r` and records `entity` as the min source. -/
theorem calc_values_strict_min (cfg : Config) (t : AggState) (entity : String)
    (r m : ℚ) (hmem : entity ∈ cfg.entity_ids)
    (hstate : t.states entity = some (.num r))
    (hmin : t.min_value = some m) (hr : r < m)
    (hb : ∀ eid v, t.states eid = some (.num v) → eid ≠ entity → m ≤ v) :
    (calc_values cfg t).min_value = some r ∧
      (calc_values cfg t).min_entity_id = some entity := by
  have hmemv : (entity, StateVal.num r) ∈ sensor_values cfg t :=
    (mem_sensor_values cfg t (entity, .num r)).2 ⟨hmem, hstate⟩
  have hbounds : ∀ p ∈ sensor_values cfg t, ∀ v, p.2 = StateVal.num v →
      (p.1 = entity → v = r) ∧ (p.1 ≠ entity → r < v) := by
    intro p hp v hv
    obtain ⟨hp1, hp2⟩ := (mem_sensor_values cfg t p).1 hp
    constructor
    · intro he
      rw [he, hv, hstate] at hp2
      have := Option.some.inj hp2
      injection this.symm
    · intro he
      rw [hv] at hp2
      exact lt_of_lt_of_le hr (hb p.1 v hp2 he)
  have hcm : calc_min (sensor_values cfg t) = (some entity, some r) :=
    calc_min_pinpoint _ entity r hmemv hbounds
  show (merge_max (merge_min t (calc_min (sensor_values cfg t)))
      (calc_max (sensor_values cfg t))).min_value = some r ∧
    (merge_max (merge_min t (calc_min (sensor_values cfg t)))
      (calc_max (sensor_values cfg t))).min_entity_id = some entity
  rw [hcm]
  obtain ⟨f1, f2, -⟩ :=
    merge_max_frame (merge_min t (some entity, some r))
      (calc_max (sensor_values cfg t))
  rw [f1, f2]
  rcases merge_min_min_spec t (some entity) r with ⟨h1, h2⟩ |
    ⟨-, -, m0, hm0, hm0r⟩
  · exact ⟨h1, h2⟩
  · rw [hmin] at hm0
    have hme : m = m0 := Option.some.inj hm0
    rw [← hme] at hm0r
    exact absurd (lt_of_le_of_lt hm0r hr) (lt_irrefl m)

/-- Dual of `calc_values_strict_min` for the max. -/
theorem calc_values_strict_max (cfg : Config) (t : AggState) (entity : String)
    (r M : ℚ) (hmem : entity ∈ cfg.entity_ids)
    (hstate : t.states entity = some (.num r))
    (hmax : t.max_value = some M) (hr : M < r)
    (hb : ∀ eid v, t.states eid = some (.num v) → eid ≠ entity → v ≤ M) :
    (calc_values cfg t).max_value = some r ∧
      (calc_values cfg t).max_entity_id = some entity := by
  have hmemv : (entity, StateVal.num r) ∈ sensor_values cfg t :=
    (mem_sensor_values cfg t (entity, .num r)).2 ⟨hmem, hstate⟩
  have hbounds : ∀ p ∈ sensor_values cfg t, ∀ v, p.2 = StateVal.num v →
      (p.1 = entity → v = r) ∧ (p.1 ≠ entity → v < r) := by
    intro p hp v hv
    obtain ⟨hp1, hp2⟩ := (mem_sensor_values cfg t p).1 hp
    constructor
    · intro he
      rw [he, hv, hstate] at hp2
      have := Option.some.inj hp2
      injection this.symm
    · intro he
      rw [hv] at hp2
      exact lt_of_le_of_lt (hb p.1 v hp2 he) hr
  have hcm : calc_max (sensor_values cfg t) = (some entity, some r) :=
    calc_max_pinpoint _ entity r hmemv hbounds
  show (merge_max (merge_min t (calc_min (sensor_values cfg t)))
      (calc_max (sensor_values cfg t))).max_value = some r ∧
    (merge_max (merge_min t (calc_min (sensor_values cfg t)))
      (calc_max (sensor_values cfg t))).max_entity_id = some entity
  rw [hcm]
  have hmax1 : (merge_min t (calc_min (sensor_values cfg t))).max_value =
      t.max_value := (merge_min_frame t _).1
  rcases merge_max_max_spec (merge_min t (calc_min (sensor_values cfg t)))
    (some entity) r with ⟨h1, h2⟩ | ⟨-, -, M0, hM0, hM0r⟩
  · exact ⟨h1, h2⟩
  · rw [hmax1, hmax] at hM0
    have hMe : M = M0 := Option.some.inj hM0
    rw [← hMe] at hM0r
    exact absurd (lt_of_le_of_lt hM0r hr) (lt_irrefl r)

/-- When every stored reading is at least the running min, recomputation
keeps both the min value and its recorded source. -/
theorem calc_values_min_keep (cfg : Config) (t : AggState) (m : ℚ)
    (hmin : t.min_value = some m)
    (hb : ∀ eid v, t.states eid = some (.num v) → m ≤ v) :
    (calc_values cfg t).min_value = some m ∧
      (calc_values cfg t).min_entity_id = t.min_entity_id := by
  have hlb : ∀ p ∈ sensor_values cfg t, ∀ v, p.2 = StateVal.num v → m ≤ v := by
    intro p hp v hv
    obtain ⟨-, hp2⟩ := (mem_sensor_values cfg t p).1 hp
    rw [hv] at hp2
    exact hb p.1 v hp2
  show (merge_max (merge_min t (calc_min (sensor_values cfg t)))
      (calc_max (sensor_values cfg t))).min_value = some m ∧
    (merge_max (merge_min t (calc_min (sensor_values cfg t)))
      (calc_max (sensor_values cfg t))).min_entity_id = t.min_entity_id
  obtain ⟨f1, f2, -⟩ :=
    merge_max_frame (merge_min t (calc_min (sensor_values cfg t)))
      (calc_max (sensor_values cfg t))
  rw [f1, f2]
  rcases foldl_min_step_lb (sensor_values cfg t) m hlb (none, none)
    (Or.inl rfl) with h0 | ⟨w, hw, hmw⟩
  · have e0 : calc_min (sensor_values cfg t) =
        ((calc_min (sensor_values cfg t)).1, none) := Prod.ext rfl h0
    rw [e0, merge_min_of_none]
    exact ⟨hmin, rfl⟩
  · have e0 : calc_min (sensor_values cfg t) =
        ((calc_min (sensor_values cfg t)).1, some w) := Prod.ext rfl hw
    rw [e0, merge_min_keep t _ w m hmin (not_lt.2 hmw)]
    exact ⟨hmin, rfl⟩

/-- Dual of `calc_values_min_keep` for the max. -/
theorem calc_values_max_keep (cfg : Config) (t : AggState) (M : ℚ)
    (hmax : t.max_value = some M)
    (hb : ∀ eid v, t.states eid = some (.num v) → v ≤ M) :
    (calc_values cfg t).max_value = some M ∧
      (calc_values cfg t).max_entity_id = t.max_entity_id := by
  have hub : ∀ p ∈ sensor_values cfg t, ∀ v, p.2 = StateVal.num v → v ≤ M := by
    intro p hp v hv
    obtain ⟨-, hp2⟩ := (mem_sensor_values cfg t p).1 hp
    rw [hv] at hp2
    exact hb p.1 v hp2
  show (merge_max (merge_min t (calc_min (sensor_values cfg t)))
      (calc_max (sensor_values cfg t))).max_value = some M ∧
    (merge_max (merge_min t (calc_min (sensor_values cfg t)))
      (calc_max (sensor_values cfg t))).max_entity_id = t.max_entity_id
  have g1 : (merge_min t (calc_min (sensor_values cfg t))).max_value =
      t.max_value := (merge_min_frame t _).1
  have g2 : (merge_min t (calc_min (sensor_values cfg t))).max_entity_id =
      t.max_entity_id := (merge_min_frame t _).2.1
  rcases foldl_max_step_ub (sensor_values cfg t) M hub (none, none)
    (Or.inl rfl) with h0 | ⟨w, hw, hmw⟩
  · have e0 : calc_max (sensor_values cfg t) =
        ((calc_max (sensor_values cfg t)).1, none) := Prod.ext rfl h0
    rw [e0, merge_max_of_none]
    exact ⟨g1.trans hmax, g2⟩
  · have e0 : calc_max (sensor_values cfg t) =
        ((calc_max (sensor_values cfg t)).1, some w) := Prod.ext rfl hw
    rw [e0, merge_max_keep _ _ w M (g1.trans hmax) (not_lt.2 hmw)]
    exact ⟨g1.trans hmax, g2⟩

/-- `_calc_values` does nothing on a state with no recorded readings. -/
theorem calc_values_empty_states (cfg : Config) (s : AggState)
    (h : ∀ a, s.states a = none) : calc_values cfg s = s := by
  have hsv : sensor_values cfg s = [] := by
    unfold sensor_values
    apply List.filterMap_eq_nil_iff.2
    intro a _
    rw [h a]
    rfl
  show merge_max (merge_min s (calc_min (sensor_values cfg s)))
    (calc_max (sensor_values cfg s)) = s
  rw [hsv]
  rfl

/-- Every operation keeps the mismatch flag set and availability cleared. -/
theorem apply_op_keeps_mismatch (cfg : Config) (s : AggState) (op : Op)
    (h1 : s.unit_mismatch = true) (h2 : s.available = false) :
    (apply_op cfg s op).unit_mismatch = true ∧
      (apply_op cfg s op).available = false := by
  cases op with
  | ev e =>
    rcases listener_shape cfg s e with ⟨t, ht, -, -, hm, ha⟩ |
      ⟨t, b, ht, -, -, hm, ha⟩
    · show ((sensor_state_listener cfg s e).1).unit_mismatch = true ∧
        ((sensor_state_listener cfg s e).1).available = false
      rw [ht]
      obtain ⟨-, -, -, -, g1, g2⟩ := calc_values_frame cfg t
      exact ⟨g1.trans (hm.trans h1), g2.trans (ha.trans h2)⟩
    · show ((sensor_state_listener cfg s e).1).unit_mismatch = true ∧
        ((sensor_state_listener cfg s e).1).available = false
      rw [ht]
      exact ⟨hm h1, ha h2⟩
  | sched =>
    show ((reset cfg s).1).unit_mismatch = true ∧
      ((reset cfg s).1).available = false
    unfold reset
    by_cases hman : cfg.manual_reset_only <;> simp [hman, h1, h2]
  | manual =>
    show ((reset cfg s).1).unit_mismatch = true ∧
      ((reset cfg s).1).available = false
    unfold reset
    by_cases hman : cfg.manual_reset_only <;> simp [hman, h1, h2]

/-- Mismatch and unavailability persist over any operation sequence. -/
theorem run_ops_keeps_mismatch (cfg : Config) (ops : List Op) :
    ∀ s : AggState, s.unit_mismatch = true → s.available = false →
      (run_ops cfg s ops).unit_mismatch = true ∧
        (run_ops cfg s ops).available = false := by
  induction ops with
  | nil => exact fun s h1 h2 => ⟨h1, h2⟩
  | cons op tl ih =>
    intro s h1 h2
    obtain ⟨g1, g2⟩ := apply_op_keeps_mismatch cfg s op h1 h2
    exact ih (apply_op cfg s op) g1 g2

/-- A non-sentinel reading whose unit annotation differs from the recorded
unit flips the mismatch flag, clears availability, stops processing and
does not notify. -/
theorem listener_mismatch_trigger (cfg : Config) (s : AggState)
    (entity : String) (ns : StateObj) (u : String)
    (hrec : s.unit_of_measurement = some u)
    (hsent : ¬(ns.state = .unknown ∨ ns.state = .unavailable))
    (hdiff : ns.unit ≠ some u) :
    sensor_state_listener cfg s ⟨entity, some ns⟩ =
      ({ s with unit_mismatch := true, available := false }, false) := by
  have h0 : ¬(s.unit_of_measurement = none) := by rw [hrec]; simp
  have hne : s.unit_of_measurement ≠ ns.unit := by
    rw [hrec]
    exact fun h => hdiff h.symm
  simp only [sensor_state_listener]
  rw [if_neg hsent]
  simp [h0, hne]

/-! ### Claim theorems -/

/-- C1: the claim states that with `manual_reset_only = true` an explicit
manual-reset request executes the reset while the scheduled trigger is a
no-op. The code violates the first half: `async_reset` delegates to
`reset`, whose `manual_reset_only` guard silently returns, so at `sC1`
(where `min_value = some 1 ≠ some 2 = last`) the manual reset leaves the
state unchanged and does not notify, instead of resetting. -/
theorem C1_manual_reset_also_suppressed :
    async_reset cfgC1 sC1 = (sC1, false) ∧ reset cfgC1 sC1 = (sC1, false) ∧
      sC1.min_value ≠ sC1.last :=
  ⟨rfl, rfl, by norm_num [sC1, initState]⟩

/-- C2: over any sequence of ingested state-change events, with no reset
or restore in between, a non-null `min_value` never increases and never
becomes null, and a non-null `max_value` never decreases and never
becomes null. -/
theorem C2_extrema_monotone_over_ingestion (cfg : Config) (s : AggState)
    (es : List Event) (m M : ℚ)
    (hm : s.min_value = some m) (hM : s.max_value = some M) :
    ∃ m' M', (run_events cfg s es).min_value = some m' ∧
      (run_events cfg s es).max_value = some M' ∧ m' ≤ m ∧ M ≤ M' := by
  obtain ⟨m', h1, h2⟩ := run_events_min_mono cfg es s m hm
  obtain ⟨M', h3, h4⟩ := run_events_max_mono cfg es s M hM
  exact ⟨m', M', h1, h3, h2, h4⟩

/-- Witness for C2 at a concrete state and event list. -/
theorem C2_extrema_monotone_over_ingestion_witness :
    sW2.min_value = some 3 ∧ sW2.max_value = some 3 ∧
    ∃ m' M', (run_events cfgW2 sW2 esW2).min_value = some m' ∧
      (run_events cfgW2 sW2 esW2).max_value = some M' ∧ m' ≤ 3 ∧ 3 ≤ M' :=
  ⟨rfl, rfl, C2_extrema_monotone_over_ingestion cfgW2 sW2 esW2 3 3 rfl rfl⟩

/-- C3: in every reachable state (fresh boot, boot restoring a snapshot
persisted from a reachable state, and any sequence of ingestions and
resets), `min_value ≤ max_value` whenever both are non-null. -/
theorem C3_reachable_min_le_max (cfg : Config) (s : AggState)
    (h : Reachable cfg s) (m M : ℚ)
    (hm : s.min_value = some m) (hM : s.max_value = some M) : m ≤ M :=
  reachable_minmax cfg s h m M hm hM

/-- Witness for C3: a state reached by two ingestions has
`min_value = 2 ≤ 3 = max_value`. -/
theorem C3_reachable_min_le_max_witness : (2 : ℚ) ≤ 3 :=
  C3_reachable_min_le_max cfgW2 sW3
    (Reachable.step _ _ (Reachable.step _ _ Reachable.fresh)) 2 3
    (by norm_num +decide [sW3, apply_op, restore_state, cfgW2, evNum,
      sensor_state_listener, calc_values, sensor_values, set_state,
      merge_min, merge_max, calc_min, calc_max, min_step, max_step,
      initState, pyRound, pyRoundInt])
    (by norm_num +decide [sW3, apply_op, restore_state, cfgW2, evNum,
      sensor_state_listener, calc_values, sensor_values, set_state,
      merge_min, merge_max, calc_min, calc_max, min_step, max_step,
      initState, pyRound, pyRoundInt])

/-- C4: an executed reset (`manual_reset_only` false) sets `min_value` and
`max_value` to the current `last` (possibly null), clears the three source
ids, and notifies observers. -/
theorem C4_reset_sets_extrema_to_last (cfg : Config) (s : AggState)
    (h : cfg.manual_reset_only = false) :
    reset cfg s =
      ({ s with
          min_value := s.last
          max_value := s.last
          min_entity_id := none
          max_entity_id := none
          last_entity_id := none }, true) := by
  simp [reset, h]

/-- Witness for C4 at a concrete configuration and state. -/
theorem C4_reset_sets_extrema_to_last_witness :
    cfgW2.manual_reset_only = false ∧
    reset cfgW2 sW4 =
      ({ sW4 with
          min_value := sW4.last
          max_value := sW4.last
          min_entity_id := none
          max_entity_id := none
          last_entity_id := none }, true) :=
  ⟨rfl, C4_reset_sets_extrema_to_last cfgW2 sW4 rfl⟩

/-- C8: restore populates `min_value`, `max_value` and `last`
independently from the snapshot, leaving a field unset when its persisted
value is missing or unparsable; in particular the snapshot
`{min_value: "2.5", max_value: "bad", last: "4.0"}` restores to
`min_value = 5/2`, `max_value` unset, `last = 4`. -/
theorem C8_restore_fields_independent :
    (∀ (cfg : Config) (ss : Snapshot),
      (restore_state cfg initState (some ss)).min_value =
          pvFloat ss.min_value ∧
      (restore_state cfg initState (some ss)).max_value =
          pvFloat ss.max_value ∧
      (restore_state cfg initState (some ss)).last = pvFloat ss.last) ∧
    ((restore_state cfgW2 initState (some snapW8)).min_value = some (5/2) ∧
      (restore_state cfgW2 initState (some snapW8)).max_value = none ∧
      (restore_state cfgW2 initState (some snapW8)).last = some 4) := by
  have hgen : ∀ (cfg : Config) (ss : Snapshot),
      (restore_state cfg initState (some ss)).min_value =
          pvFloat ss.min_value ∧
      (restore_state cfg initState (some ss)).max_value =
          pvFloat ss.max_value ∧
      (restore_state cfg initState (some ss)).last = pvFloat ss.last := by
    intro cfg ss
    simp only [restore_state]
    rw [calc_values_empty_states cfg _ (fun a => rfl)]
    refine ⟨?_, ?_, ?_⟩
    · show (match pvFloat ss.min_value with
        | some v => some v
        | none => initState.min_value) = pvFloat ss.min_value
      cases pvFloat ss.min_value <;> rfl
    · show (match pvFloat ss.max_value with
        | some v => some v
        | none => initState.max_value) = pvFloat ss.max_value
      cases pvFloat ss.max_value <;> rfl
    · show (match pvFloat ss.last with
        | some v => some v
        | none => initState.last) = pvFloat ss.last
      cases pvFloat ss.last <;> rfl
  exact ⟨hgen, (hgen cfgW2 snapW8).1.trans rfl,
    (hgen cfgW2 snapW8).2.1.trans rfl, (hgen cfgW2 snapW8).2.2.trans rfl⟩

/-- C6 as stated is false: ingesting a sentinel triggers recomputation,
which after a reset can re-adopt a stale stored reading below the running
min. Concretely: `a` reports 1, `b` reports 5, the reset sets
`min = max = last = 5`, and a sentinel for `b` then drops `min_value`
back to 1 with `min_entity_id = a`. -/
theorem C6_sentinel_changes_min_counterexample :
    s6c.min_value = some 5 ∧ s6d.min_value = some 1 ∧
      s6d.min_value ≠ s6c.min_value ∧ s6d.min_entity_id ≠ s6c.min_entity_id := by
  norm_num +decide [s6d, s6c, s6b, s6a, cfgC6, evNum, evUnknown,
    sensor_state_listener, calc_values, sensor_values, set_state,
    merge_min, merge_max, calc_min, calc_max, min_step, max_step,
    initState, reset, pyRound, pyRoundInt]

/-- C6 (amended): ingesting a sentinel (unknown/unavailable) or absent
reading stores the sentinel for that source, leaves `last`,
`last_entity_id`, the recorded unit and the mismatch flag unchanged,
notifies observers, and triggers recomputation — which never nulls or
raises `min_value` (it stays or decreases toward stored readings) and
never nulls or lowers `max_value`. -/
theorem C6_sentinel_ingestion_effect (cfg : Config) (s : AggState)
    (e : Event)
    (h : e.new_state = none ∨ ∃ ns, e.new_state = some ns ∧
      (ns.state = .unknown ∨ ns.state = .unavailable)) :
    ((sensor_state_listener cfg s e).1).states e.entity_id =
        some .sentinel ∧
    (sensor_state_listener cfg s e).2 = true ∧
    ((sensor_state_listener cfg s e).1).last = s.last ∧
    ((sensor_state_listener cfg s e).1).last_entity_id = s.last_entity_id ∧
    ((sensor_state_listener cfg s e).1).unit_of_measurement =
        s.unit_of_measurement ∧
    ((sensor_state_listener cfg s e).1).unit_mismatch = s.unit_mismatch ∧
    (∀ m, s.min_value = some m →
      ∃ m', ((sensor_state_listener cfg s e).1).min_value = some m' ∧
        m' ≤ m) ∧
    (∀ M, s.max_value = some M →
      ∃ M', ((sensor_state_listener cfg s e).1).max_value = some M' ∧
        M ≤ M') := by
  have heq := listener_sentinel cfg s e h
  rw [heq]
  obtain ⟨f1, f2, f3, f4, f5, -⟩ :=
    calc_values_frame cfg (set_state s e.entity_id .sentinel)
  refine ⟨?_, rfl, ?_, ?_, ?_, ?_, ?_, ?_⟩
  · rw [f3]
    simp [set_state]
  · exact f1
  · exact f2
  · exact f4
  · exact f5
  · intro m hm
    exact calc_values_min_mono cfg _ m hm
  · intro M hM
    exact calc_values_max_mono cfg _ M hM

/-- Witness for the amended C6 at the counterexample's reset state. -/
theorem C6_sentinel_ingestion_effect_witness :
    ((sensor_state_listener cfgC6 s6c (evUnknown "b")).1).states "b" =
        some StateVal.sentinel ∧
    (sensor_state_listener cfgC6 s6c (evUnknown "b")).2 = true ∧
    ((sensor_state_listener cfgC6 s6c (evUnknown "b")).1).last = s6c.last ∧
    ((sensor_state_listener cfgC6 s6c (evUnknown "b")).1).last_entity_id =
        s6c.last_entity_id ∧
    ((sensor_state_listener cfgC6 s6c (evUnknown "b")).1).unit_of_measurement =
        s6c.unit_of_measurement ∧
    ((sensor_state_listener cfgC6 s6c (evUnknown "b")).1).unit_mismatch =
        s6c.unit_mismatch ∧
    (∀ m, s6c.min_value = some m →
      ∃ m', ((sensor_state_listener cfgC6 s6c (evUnknown "b")).1).min_value =
        some m' ∧ m' ≤ m) ∧
    (∀ M, s6c.max_value = some M →
      ∃ M', ((sensor_state_listener cfgC6 s6c (evUnknown "b")).1).max_value =
        some M' ∧ M ≤ M') :=
  C6_sentinel_ingestion_effect cfgC6 s6c (evUnknown "b")
    (Or.inr ⟨⟨.unknown, none⟩, rfl, Or.inl rfl⟩)

/-- C7 as stated is false: a non-sentinel unparsable reading does not
leave the entire state unchanged — on a state with no recorded unit, the
unit annotation of the malformed reading is recorded before the parse is
attempted. The rest of the state is untouched and no notification is
sent. -/
theorem C7_parse_failure_records_unit_counterexample :
    ((sensor_state_listener cfgC6 initState e7).1).unit_of_measurement =
        some "u" ∧
    initState.unit_of_measurement = none ∧
    ((sensor_state_listener cfgC6 initState e7).1).unit_of_measurement ≠
        initState.unit_of_measurement ∧
    (sensor_state_listener cfgC6 initState e7).2 = false := by
  refine ⟨rfl, rfl, ?_, rfl⟩
  intro hcontra
  rw [show ((sensor_state_listener cfgC6 initState e7).1).unit_of_measurement
        = some "u" from rfl,
      show initState.unit_of_measurement = (none : Option String) from rfl]
    at hcontra
  exact Option.some_ne_none "u" hcontra

/-- C7 (amended): for every state and unit-consistent non-sentinel reading
whose payload does not parse as a number, ingestion leaves the whole
state unchanged except that a first unit annotation is recorded, and does
not notify observers. -/
theorem C7_parse_failure_keeps_state (cfg : Config) (s : AggState)
    (entity : String) (uu : Option String)
    (hu : s.unit_of_measurement = none ∨ s.unit_of_measurement = uu) :
    sensor_state_listener cfg s ⟨entity, some ⟨.malformed, uu⟩⟩ =
      ({ s with
          unit_of_measurement :=
            if s.unit_of_measurement = none then uu
            else s.unit_of_measurement }, false) := by
  rcases hu with hu0 | hu0
  · simp [sensor_state_listener, hu0]
  · by_cases h0 : s.unit_of_measurement = none
    · rw [h0] at hu0
      simp [sensor_state_listener, h0, ← hu0]
    · have huu : ¬(uu = none) := fun hh => h0 (hu0.trans hh)
      simp [sensor_state_listener, h0, huu, ← hu0]

/-- Witness for the amended C7 on the fresh state. -/
theorem C7_parse_failure_keeps_state_witness :
    sensor_state_listener cfgC6 initState ⟨"a", some ⟨.malformed, some "u"⟩⟩ =
      ({ initState with
          unit_of_measurement :=
            if initState.unit_of_measurement = none then some "u"
            else initState.unit_of_measurement }, false) :=
  C7_parse_failure_keeps_state cfgC6 initState "a" (some "u") (Or.inl rfl)

/-- C9: once a non-sentinel reading arrives whose unit annotation differs
from the recorded unit, the mismatch flag is set, and after any further
sequence of ingestions and resets it is still set, the sensor is still
unavailable, and the primary exposed value is `none` — even if later
readings carry the original unit. -/
theorem C9_unit_mismatch_permanent (cfg : Config) (s : AggState)
    (entity : String) (ns : StateObj) (u : String)
    (hrec : s.unit_of_measurement = some u)
    (hsent : ¬(ns.state = .unknown ∨ ns.state = .unavailable))
    (hdiff : ns.unit ≠ some u) :
    ((sensor_state_listener cfg s ⟨entity, some ns⟩).1).unit_mismatch =
        true ∧
    ((sensor_state_listener cfg s ⟨entity, some ns⟩).1).available = false ∧
    ∀ ops : List Op,
      (run_ops cfg ((sensor_state_listener cfg s ⟨entity, some ns⟩).1)
          ops).unit_mismatch = true ∧
      (run_ops cfg ((sensor_state_listener cfg s ⟨entity, some ns⟩).1)
          ops).available = false ∧
      native_value cfg
          (run_ops cfg ((sensor_state_listener cfg s ⟨entity, some ns⟩).1)
            ops) = none := by
  have htr := listener_mismatch_trigger cfg s entity ns u hrec hsent hdiff
  rw [htr]
  refine ⟨rfl, rfl, ?_⟩
  intro ops
  obtain ⟨g1, g2⟩ := run_ops_keeps_mismatch cfg ops
    { s with unit_mismatch := true, available := false } rfl rfl
  exact ⟨g1, g2, by simp [native_value, g1]⟩

/-- Witness for C9: a Fahrenheit reading on a Celsius aggregator. -/
theorem C9_unit_mismatch_permanent_witness :
    ((sensor_state_listener cfgW2 sW9
        ⟨"a", some ⟨.numeric 5, some "F"⟩⟩).1).unit_mismatch = true ∧
    ((sensor_state_listener cfgW2 sW9
        ⟨"a", some ⟨.numeric 5, some "F"⟩⟩).1).available = false ∧
    ∀ ops : List Op,
      (run_ops cfgW2 ((sensor_state_listener cfgW2 sW9
          ⟨"a", some ⟨.numeric 5, some "F"⟩⟩).1) ops).unit_mismatch = true ∧
      (run_ops cfgW2 ((sensor_state_listener cfgW2 sW9
          ⟨"a", some ⟨.numeric 5, some "F"⟩⟩).1) ops).available = false ∧
      native_value cfgW2
          (run_ops cfgW2 ((sensor_state_listener cfgW2 sW9
            ⟨"a", some ⟨.numeric 5, some "F"⟩⟩).1) ops) = none :=
  C9_unit_mismatch_permanent cfgW2 sW9 "a" ⟨.numeric 5, some "F"⟩ "C" rfl
    (by decide) (by decide)

/-- A rounded reading strictly below the running min, on a state whose
other stored readings are all at least the running min, becomes the new
min and its source the new min source. -/
theorem listener_numeric_min_strict (cfg : Config) (s : AggState)
    (entity : String) (q : ℚ) (uu : Option String) (m : ℚ)
    (hmem : entity ∈ cfg.entity_ids)
    (hu : s.unit_of_measurement = none ∨ s.unit_of_measurement = uu)
    (hm : s.min_value = some m) (hlt : pyRound cfg.round_digits q < m)
    (hb : ∀ eid v, s.states eid = some (.num v) → eid ≠ entity → m ≤ v) :
    ((sensor_state_listener cfg s ⟨entity, some ⟨.numeric q, uu⟩⟩).1).min_value
        = some (pyRound cfg.round_digits q) ∧
    ((sensor_state_listener cfg s ⟨entity, some ⟨.numeric q, uu⟩⟩).1).min_entity_id
        = some entity := by
  rw [listener_numeric cfg s entity q uu hu]
  refine calc_values_strict_min cfg _ entity _ m hmem (by simp) hm hlt ?_
  intro eid v hv hne
  have hv' : (if eid = entity
      then some (StateVal.num (pyRound cfg.round_digits q))
      else s.states eid) = some (StateVal.num v) := hv
  rw [if_neg hne] at hv'
  exact hb eid v hv' hne

/-- Dual of `listener_numeric_min_strict` for the max. -/
theorem listener_numeric_max_strict (cfg : Config) (s : AggState)
    (entity : String) (q : ℚ) (uu : Option String) (M : ℚ)
    (hmem : entity ∈ cfg.entity_ids)
    (hu : s.unit_of_measurement = none ∨ s.unit_of_measurement = uu)
    (hM : s.max_value = some M) (hgt : M < pyRound cfg.round_digits q)
    (hb : ∀ eid v, s.states eid = some (.num v) → eid ≠ entity → v ≤ M) :
    ((sensor_state_listener cfg s ⟨entity, some ⟨.numeric q, uu⟩⟩).1).max_value
        = some (pyRound cfg.round_digits q) ∧
    ((sensor_state_listener cfg s ⟨entity, some ⟨.numeric q, uu⟩⟩).1).max_entity_id
        = some entity := by
  rw [listener_numeric cfg s entity q uu hu]
  refine calc_values_strict_max cfg _ entity _ M hmem (by simp) hM hgt ?_
  intro eid v hv hne
  have hv' : (if eid = entity
      then some (StateVal.num (pyRound cfg.round_digits q))
      else s.states eid) = some (StateVal.num v) := hv
  rw [if_neg hne] at hv'
  exact hb eid v hv' hne

/-- A rounded reading equal to the running min, on a state whose stored
readings are all at least the running min, changes neither the min value
nor the recorded min source. -/
theorem listener_numeric_min_keep (cfg : Config) (s : AggState)
    (entity : String) (q : ℚ) (uu : Option String) (m : ℚ)
    (hu : s.unit_of_measurement = none ∨ s.unit_of_measurement = uu)
    (hm : s.min_value = some m) (heq2 : pyRound cfg.round_digits q = m)
    (hb : ∀ eid v, s.states eid = some (.num v) → m ≤ v) :
    ((sensor_state_listener cfg s ⟨entity, some ⟨.numeric q, uu⟩⟩).1).min_value
        = some m ∧
    ((sensor_state_listener cfg s ⟨entity, some ⟨.numeric q, uu⟩⟩).1).min_entity_id
        = s.min_entity_id := by
  rw [listener_numeric cfg s entity q uu hu]
  refine calc_values_min_keep cfg _ m hm ?_
  intro eid v hv
  have hv' : (if eid = entity
      then some (StateVal.num (pyRound cfg.round_digits q))
      else s.states eid) = some (StateVal.num v) := hv
  by_cases hne : eid = entity
  · rw [if_pos hne] at hv'
    have h2 := Option.some.inj hv'
    injection h2 with h3
    rw [← h3, heq2]
  · rw [if_neg hne] at hv'
    exact hb eid v hv'

/-- Dual of `listener_numeric_min_keep` for the max. -/
theorem listener_numeric_max_keep (cfg : Config) (s : AggState)
    (entity : String) (q : ℚ) (uu : Option String) (M : ℚ)
    (hu : s.unit_of_measurement = none ∨ s.unit_of_measurement = uu)
    (hM : s.max_value = some M) (heq2 : pyRound cfg.round_digits q = M)
    (hb : ∀ eid v, s.states eid = some (.num v) → v ≤ M) :
    ((sensor_state_listener cfg s ⟨entity, some ⟨.numeric q, uu⟩⟩).1).max_value
        = some M ∧
    ((sensor_state_listener cfg s ⟨entity, some ⟨.numeric q, uu⟩⟩).1).max_entity_id
        = s.max_entity_id := by
  rw [listener_numeric cfg s entity q uu hu]
  refine calc_values_max_keep cfg _ M hM ?_
  intro eid v hv
  have hv' : (if eid = entity
      then some (StateVal.num (pyRound cfg.round_digits q))
      else s.states eid) = some (StateVal.num v) := hv
  by_cases hne : eid = entity
  · rw [if_pos hne] at hv'
    have h2 := Option.some.inj hv'
    injection h2 with h3
    rw [← h3, heq2]
  · rw [if_neg hne] at hv'
    exact hb eid v hv'

/-- C5: on a state whose stored last values were all ingested in the
current window — so every stored numeric reading lies within the running
extrema — a reading that rounds strictly below `min_value` becomes the
new min with its source recorded as `min_entity_id`; one equal to
`min_value` changes neither the min nor its source; and symmetrically a
reading strictly above `max_value` becomes the new max with its source,
while one equal to it changes nothing. -/
theorem C5_strict_updates_equal_keeps (cfg : Config) (s : AggState)
    (entity : String) (q : ℚ) (uu : Option String) (m M : ℚ)
    (hmem : entity ∈ cfg.entity_ids)
    (hu : s.unit_of_measurement = none ∨ s.unit_of_measurement = uu)
    (hm : s.min_value = some m) (hM : s.max_value = some M)
    (hlo : ∀ eid v, s.states eid = some (.num v) → m ≤ v)
    (hhi : ∀ eid v, s.states eid = some (.num v) → v ≤ M) :
    (pyRound cfg.round_digits q < m →
      ((sensor_state_listener cfg s
          ⟨entity, some ⟨.numeric q, uu⟩⟩).1).min_value =
        some (pyRound cfg.round_digits q) ∧
      ((sensor_state_listener cfg s
          ⟨entity, some ⟨.numeric q, uu⟩⟩).1).min_entity_id = some entity) ∧
    (pyRound cfg.round_digits q = m →
      ((sensor_state_listener cfg s
          ⟨entity, some ⟨.numeric q, uu⟩⟩).1).min_value = some m ∧
      ((sensor_state_listener cfg s
          ⟨entity, some ⟨.numeric q, uu⟩⟩).1).min_entity_id =
        s.min_entity_id) ∧
    (M < pyRound cfg.round_digits q →
      ((sensor_state_listener cfg s
          ⟨entity, some ⟨.numeric q, uu⟩⟩).1).max_value =
        some (pyRound cfg.round_digits q) ∧
      ((sensor_state_listener cfg s
          ⟨entity, some ⟨.numeric q, uu⟩⟩).1).max_entity_id = some entity) ∧
    (pyRound cfg.round_digits q = M →
      ((sensor_state_listener cfg s
          ⟨entity, some ⟨.numeric q, uu⟩⟩).1).max_value = some M ∧
      ((sensor_state_listener cfg s
          ⟨entity, some ⟨.numeric q, uu⟩⟩).1).max_entity_id =
        s.max_entity_id) :=
  ⟨fun hlt => listener_numeric_min_strict cfg s entity q uu m hmem hu hm hlt
      (fun eid v hv _ => hlo eid v hv),
   fun he => listener_numeric_min_keep cfg s entity q uu m hu hm he hlo,
   fun hgt => listener_numeric_max_strict cfg s entity q uu M hmem hu hM hgt
      (fun eid v hv _ => hhi eid v hv),
   fun he => listener_numeric_max_keep cfg s entity q uu M hu hM he hhi⟩

/-- Witness for C5: ingesting `2` on `b` while `a` holds `3` and the
extrema are `3`; the strict-min branch fires since `round(2, 0) = 2 < 3`. -/
theorem C5_strict_updates_equal_keeps_witness :
    pyRound cfgW2.round_digits 2 < 3 ∧
    (((sensor_state_listener cfgW2 sW5
        ⟨"b", some ⟨.numeric 2, none⟩⟩).1).min_value =
      some (pyRound cfgW2.round_digits 2) ∧
    ((sensor_state_listener cfgW2 sW5
        ⟨"b", some ⟨.numeric 2, none⟩⟩).1).min_entity_id = some "b") := by
  have hlo : ∀ eid v, sW5.states eid = some (StateVal.num v) → (3:ℚ) ≤ v := by
    intro eid v h
    have h' : (if eid = "a" then some (StateVal.num 3) else none) =
        some (StateVal.num v) := h
    by_cases he : eid = "a"
    · rw [if_pos he] at h'
      have h2 := Option.some.inj h'
      injection h2 with h3
      exact le_of_eq h3
    · rw [if_neg he] at h'
      exact absurd h' (by simp)
  have hhi : ∀ eid v, sW5.states eid = some (StateVal.num v) → v ≤ (3:ℚ) := by
    intro eid v h
    have h' : (if eid = "a" then some (StateVal.num 3) else none) =
        some (StateVal.num v) := h
    by_cases he : eid = "a"
    · rw [if_pos he] at h'
      have h2 := Option.some.inj h'
      injection h2 with h3
      exact le_of_eq h3.symm
    · rw [if_neg he] at h'
      exact absurd h' (by simp)
  have hr2 : pyRound cfgW2.round_digits 2 < 3 := by
    norm_num [cfgW2, pyRound, pyRoundInt]
  exact ⟨hr2,
    (C5_strict_updates_equal_keeps cfgW2 sW5 "b" 2 none 3 3 (by decide)
      (Or.inl rfl) rfl rfl hlo hhi).1 hr2⟩

/-- C10: after the mismatch flag is set, a numeric reading whose unit
annotation matches the recorded unit is still fully processed — rounded
and stored for its source, made the latest value and source, observers
notified, and it can still tighten the extrema — while the mismatch flag
stays set and the primary exposed value stays `none`. -/
theorem C10_mismatch_still_processes (cfg : Config) (s : AggState)
    (entity : String) (q : ℚ) (u : String)
    (hmis : s.unit_mismatch = true)
    (hrec : s.unit_of_measurement = some u)
    (hmem : entity ∈ cfg.entity_ids) :
    ((sensor_state_listener cfg s
        ⟨entity, some ⟨.numeric q, some u⟩⟩).1).states entity =
      some (.num (pyRound cfg.round_digits q)) ∧
    ((sensor_state_listener cfg s
        ⟨entity, some ⟨.numeric q, some u⟩⟩).1).last =
      some (pyRound cfg.round_digits q) ∧
    ((sensor_state_listener cfg s
        ⟨entity, some ⟨.numeric q, some u⟩⟩).1).last_entity_id =
      some entity ∧
    (sensor_state_listener cfg s
        ⟨entity, some ⟨.numeric q, some u⟩⟩).2 = true ∧
    ((sensor_state_listener cfg s
        ⟨entity, some ⟨.numeric q, some u⟩⟩).1).unit_mismatch = true ∧
    native_value cfg
      ((sensor_state_listener cfg s
        ⟨entity, some ⟨.numeric q, some u⟩⟩).1) = none ∧
    (∀ m, s.min_value = some m → pyRound cfg.round_digits q < m →
      (∀ eid v, s.states eid = some (.num v) → eid ≠ entity → m ≤ v) →
      ((sensor_state_listener cfg s
          ⟨entity, some ⟨.numeric q, some u⟩⟩).1).min_value =
        some (pyRound cfg.round_digits q) ∧
      ((sensor_state_listener cfg s
          ⟨entity, some ⟨.numeric q, some u⟩⟩).1).min_entity_id =
        some entity) ∧
    (∀ M, s.max_value = some M → M < pyRound cfg.round_digits q →
      (∀ eid v, s.states eid = some (.num v) → eid ≠ entity → v ≤ M) →
      ((sensor_state_listener cfg s
          ⟨entity, some ⟨.numeric q, some u⟩⟩).1).max_value =
        some (pyRound cfg.round_digits q) ∧
      ((sensor_state_listener cfg s
          ⟨entity, some ⟨.numeric q, some u⟩⟩).1).max_entity_id =
        some entity) := by
  have hu : s.unit_of_measurement = none ∨ s.unit_of_measurement = some u :=
    Or.inr hrec
  have heq := listener_numeric cfg s entity q (some u) hu
  have hmis2 : ((sensor_state_listener cfg s
      ⟨entity, some ⟨.numeric q, some u⟩⟩).1).unit_mismatch = true := by
    rw [heq]
    exact ((calc_values_frame cfg _).2.2.2.2.1).trans hmis
  refine ⟨?_, ?_, ?_, ?_, hmis2, by simp [native_value, hmis2], ?_, ?_⟩
  · rw [heq]
    exact (congrFun ((calc_values_frame cfg _).2.2.1) entity).trans (by simp)
  · rw [heq]
    exact (calc_values_frame cfg _).1
  · rw [heq]
    exact (calc_values_frame cfg _).2.1
  · rw [heq]
  · intro m hm hlt hb
    exact listener_numeric_min_strict cfg s entity q (some u) m hmem hu hm
      hlt hb
  · intro M hM hgt hb
    exact listener_numeric_max_strict cfg s entity q (some u) M hmem hu hM
      hgt hb

/-- Witness for C10: with the mismatch flag set and unit `"C"` recorded,
a matching reading `2` on `b` is still fully processed. -/
theorem C10_mismatch_still_processes_witness :
    sW10.unit_mismatch = true ∧
    (((sensor_state_listener cfgW2 sW10
        ⟨"b", some ⟨.numeric 2, some "C"⟩⟩).1).states "b" =
      some (StateVal.num (pyRound cfgW2.round_digits 2)) ∧
    ((sensor_state_listener cfgW2 sW10
        ⟨"b", some ⟨.numeric 2, some "C"⟩⟩).1).last =
      some (pyRound cfgW2.round_digits 2) ∧
    ((sensor_state_listener cfgW2 sW10
        ⟨"b", some ⟨.numeric 2, some "C"⟩⟩).1).last_entity_id = some "b" ∧
    (sensor_state_listener cfgW2 sW10
        ⟨"b", some ⟨.numeric 2, some "C"⟩⟩).2 = true ∧
    ((sensor_state_listener cfgW2 sW10
        ⟨"b", some ⟨.numeric 2, some "C"⟩⟩).1).unit_mismatch = true ∧
    native_value cfgW2
      ((sensor_state_listener cfgW2 sW10
        ⟨"b", some ⟨.numeric 2, some "C"⟩⟩).1) = none ∧
    (∀ m, sW10.min_value = some m → pyRound cfgW2.round_digits 2 < m →
      (∀ eid v, sW10.states eid = some (.num v) → eid ≠ "b" → m ≤ v) →
      ((sensor_state_listener cfgW2 sW10
          ⟨"b", some ⟨.numeric 2, some "C"⟩⟩).1).min_value =
        some (pyRound cfgW2.round_digits 2) ∧
      ((sensor_state_listener cfgW2 sW10
          ⟨"b", some ⟨.numeric 2, some "C"⟩⟩).1).min_entity_id =
        some "b") ∧
    (∀ M, sW10.max_value = some M → M < pyRound cfgW2.round_digits 2 →
      (∀ eid v, sW10.states eid = some (.num v) → eid ≠ "b" → v ≤ M) →
      ((sensor_state_listener cfgW2 sW10
          ⟨"b", some ⟨.numeric 2, some "C"⟩⟩).1).max_value =
        some (pyRound cfgW2.round_digits 2) ∧
      ((sensor_state_listener cfgW2 sW10
          ⟨"b", some ⟨.numeric 2, some "C"⟩⟩).1).max_entity_id =
        some "b")) :=
  ⟨rfl, C10_mismatch_still_processes cfgW2 sW10 "b" 2 "C" rfl rfl (by decide)⟩
